import Mathlib

/-!
Verification of the core of the `lucid_chatbot` repository: the
structured-response recovery pipeline (`sanitize_llm_json_response`), the
keyword-fallback intent analyzer, the conversation state machine
(`update_context_state`), and the context/history persistence layer.

The Python source is shallowly embedded: every definition below is a direct
translation of the corresponding Python function in
`appointment_service.py`, `models.py`, `context_manager.py`.  Python string
operations (lower-casing, substring containment, stripping, the concrete
regular expressions used by the source) are modelled by executable Lean
functions over `List Char`.  Only ASCII text flows through the program's
string operations, so the ASCII behaviour of `lower`/`title`/whitespace is
modelled.  File I/O and wall-clock timestamps are elided: persistence is
modelled at the level of the dictionaries the code writes and reads, and the
`last_message_time` field (only ever overwritten with `datetime.now()`) is
omitted from the context record.
-/

namespace LucidChatbot

/-! ### Python string primitives -/

/-- Python whitespace for `str.strip` and the regex class `\s`
(ASCII part: space, tab, newline, carriage return, form feed, vertical tab). -/
def pyIsSpace (c : Char) : Bool :=
  c == ' ' || c == '\t' || c == '\n' || c == '\r' || c == '\x0c' || c == '\x0b'

/-- The regex word class `\w` (ASCII part). -/
def pyIsWord (c : Char) : Bool :=
  c.isAlpha || c.isDigit || c == '_'

/-- Substring containment on character lists: Python's `needle in hay`. -/
def charsContain (needle : List Char) : List Char → Bool
  | [] => needle.isEmpty
  | c :: cs => needle.isPrefixOf (c :: cs) || charsContain needle cs

/-- Python's `needle in hay` on strings. -/
def pyContains (hay needle : String) : Bool :=
  charsContain needle.toList hay.toList

/-- Python's `str.lower` (ASCII). -/
def pyLower (s : String) : String :=
  String.mk (s.toList.map Char.toLower)

/-- Python's `str.strip()` with no argument: drop leading and trailing
whitespace. -/
def pyStrip (s : String) : String :=
  String.mk (((s.toList.dropWhile pyIsSpace).reverse.dropWhile pyIsSpace).reverse)

/-- Python's `str.strip('"')`: drop leading and trailing double-quote
characters. -/
def pyStripQuotes (s : String) : String :=
  String.mk (((s.toList.dropWhile (· == '"')).reverse.dropWhile (· == '"')).reverse)

/-- One step of Python's `str.title`: upper-case a letter that follows a
non-letter, lower-case a letter that follows a letter. -/
def pyTitleChars : Bool → List Char → List Char
  | _, [] => []
  | prevAlpha, c :: cs =>
    if c.isAlpha then
      (if prevAlpha then c.toLower else c.toUpper) :: pyTitleChars true cs
    else
      c :: pyTitleChars false cs

/-- Python's `str.title` (ASCII). -/
def pyTitle (s : String) : String :=
  String.mk (pyTitleChars false s.toList)

/-- Python truthiness of an `Optional[str]`: `None` and `""` are falsy. -/
def optStrTruthy : Option String → Bool
  | none => false
  | some s => s ≠ ""

/-! ### Data model (`models.py`) -/

/-- `ConversationState` enum. -/
inductive ConversationState where
  | INITIAL
  | WAITING_LOCATION
  | WAITING_CENTER_SELECTION
  | WAITING_TIME_SLOT
  | CONFIRMING_APPOINTMENT
  | COMPLETED
  deriving DecidableEq, Repr

/-- The `.value` string of each `ConversationState` member. -/
def ConversationState.value : ConversationState → String
  | .INITIAL => "initial"
  | .WAITING_LOCATION => "waiting_location"
  | .WAITING_CENTER_SELECTION => "waiting_center_selection"
  | .WAITING_TIME_SLOT => "waiting_time_slot"
  | .CONFIRMING_APPOINTMENT => "confirming_appointment"
  | .COMPLETED => "completed"

/-- `ConversationState(s)`: look a member up by its value; `none` models the
`ValueError` raised on an unknown value. -/
def ConversationState.ofValue (s : String) : Option ConversationState :=
  if s = "initial" then some .INITIAL
  else if s = "waiting_location" then some .WAITING_LOCATION
  else if s = "waiting_center_selection" then some .WAITING_CENTER_SELECTION
  else if s = "waiting_time_slot" then some .WAITING_TIME_SLOT
  else if s = "confirming_appointment" then some .CONFIRMING_APPOINTMENT
  else if s = "completed" then some .COMPLETED
  else none

/-- `ServiceCenter` model. -/
structure ServiceCenter where
  name : String
  city : String
  address : String
  phone : String
  deriving DecidableEq, Repr

/-- `TimeSlot` model (`available` defaults to true in the source). -/
structure TimeSlot where
  time : String
  date : String
  available : Bool := true
  deriving DecidableEq, Repr

/-- `AppointmentContext` model.  `last_message_time` is omitted: the code
only ever overwrites it with the current wall-clock time and no verified
property reads it. -/
structure AppointmentContext where
  user_id : String
  state : ConversationState := .INITIAL
  city : Option String := none
  selected_center : Option ServiceCenter := none
  selected_time_slot : Option TimeSlot := none
  appointment_saved : Bool := false
  deriving DecidableEq, Repr

/-- A context as freshly created by `ContextManager.get_context` for an
unknown user id: `AppointmentContext(user_id=clean_user_id)`. -/
def freshContext (uid : String) : AppointmentContext := { user_id := uid }

/-- The `SERVICE_CENTERS` directory, in dict-definition order. -/
def SERVICE_CENTERS : List (String × List ServiceCenter) :=
  [ ("riyadh",
      [ { name := "Lucid Service Center - Riyadh Downtown", city := "Riyadh",
          address := "King Fahd Road, Riyadh 12345", phone := "+966-11-123-4567" },
        { name := "Lucid Service Center - Riyadh North", city := "Riyadh",
          address := "Olaya Street, Riyadh 12346", phone := "+966-11-123-4568" },
        { name := "Lucid Service Center - Riyadh East", city := "Riyadh",
          address := "King Abdullah Road, Riyadh 12347", phone := "+966-11-123-4569" } ]),
    ("jeddah",
      [ { name := "Lucid Service Center - Jeddah", city := "Jeddah",
          address := "Tahlia Street, Jeddah 21414", phone := "+966-12-234-5678" },
        { name := "Lucid Service Center - Jeddah North", city := "Jeddah",
          address := "King Abdulaziz Road, Jeddah 21415", phone := "+966-12-234-5679" } ]),
    ("dammam",
      [ { name := "Lucid Service Center - Dammam", city := "Dammam",
          address := "King Saud Road, Dammam 31411", phone := "+966-13-345-6789" },
        { name := "Lucid Service Center - Dammam West", city := "Dammam",
          address := "King Fahd Road, Dammam 31412", phone := "+966-13-345-6790" } ]),
    ("makkah",
      [ { name := "Lucid Service Center - Makkah", city := "Makkah",
          address := "King Abdulaziz Road, Makkah 21955", phone := "+966-12-345-6789" } ]),
    ("medina",
      [ { name := "Lucid Service Center - Medina", city := "Medina",
          address := "King Fahd Road, Medina 42351", phone := "+966-14-456-7890" } ]),
    ("taif",
      [ { name := "Lucid Service Center - Taif", city := "Taif",
          address := "King Khalid Road, Taif 21944", phone := "+966-12-567-8901" } ]),
    ("abha",
      [ { name := "Lucid Service Center - Abha", city := "Abha",
          address := "King Faisal Road, Abha 61321", phone := "+966-17-678-9012" } ]),
    ("tabuk",
      [ { name := "Lucid Service Center - Tabuk", city := "Tabuk",
          address := "King Abdulaziz Road, Tabuk 71491", phone := "+966-14-789-0123" } ]),
    ("jazan",
      [ { name := "Lucid Service Center - Jazan", city := "Jazan",
          address := "King Fahd Road, Jazan 45142", phone := "+966-17-890-1234" } ]),
    ("hail",
      [ { name := "Lucid Service Center - Hail", city := "Hail",
          address := "King Khalid Road, Hail 81451", phone := "+966-16-901-2345" } ]),
    ("al-ahsa",
      [ { name := "Lucid Service Center - Al-Ahsa", city := "Al-Ahsa",
          address := "King Fahd Road, Al-Ahsa 31982", phone := "+966-13-012-3456" } ]),
    ("khamis-mushait",
      [ { name := "Lucid Service Center - Khamis Mushait", city := "Khamis Mushait",
          address := "King Abdullah Road, Khamis Mushait 61961", phone := "+966-17-123-4567" } ]) ]

/-- `AVAILABLE_TIME_SLOTS`.  `models.py` assigns this name twice; the second
assignment (seven slots) overwrites the first, so only it is embedded. -/
def AVAILABLE_TIME_SLOTS : List TimeSlot :=
  [ { time := "10 AM", date := "July 17th" },
    { time := "11 AM", date := "July 17th" },
    { time := "2 PM", date := "July 17th" },
    { time := "3 PM", date := "July 17th" },
    { time := "10 AM", date := "July 18th" },
    { time := "1 PM", date := "July 18th" },
    { time := "4 PM", date := "July 18th" } ]

/-- `get_service_centers_by_city`: case-insensitive directory lookup,
empty list as default. -/
def get_service_centers_by_city (city : String) : List ServiceCenter :=
  match SERVICE_CENTERS.lookup (pyLower city) with
  | some cs => cs
  | none => []

/-- `find_city_from_text`: first directory key contained in the lower-cased
text, returned title-cased; `None` when no key matches. -/
def find_city_from_text (text : String) : Option String :=
  let textLower := pyLower text
  match (SERVICE_CENTERS.map Prod.fst).find? (fun city => pyContains textLower city) with
  | some city => some (pyTitle city)
  | none => none

/-! ### `IntentAnalysis` and the fallback analyzer (`appointment_service.py`) -/

/-- The `IntentAnalysis` pydantic model.  `confidence` is a Python float;
it is modelled as an exact rational because the program performs no
arithmetic on it (the values are only stored and compared). -/
structure IntentAnalysis where
  intent : String
  city : Option String := none
  time_preference : Option String := none
  center_preference : Option String := none
  confidence : ℚ := mkRat 1 2
  reasoning : Option String := none
  deriving DecidableEq, Repr

/-- The booking keyword list of `_fallback_intent_analysis`. -/
def booking_keywords : List String :=
  ["book", "schedule", "appointment", "service", "servicing", "check-up", "maintenance"]

/-- The greeting keyword list of `_fallback_intent_analysis`. -/
def greeting_keywords : List String :=
  ["hello", "hi", "hey", "good morning", "good afternoon"]

/-- The time keyword list of `_fallback_intent_analysis`. -/
def time_keywords : List String :=
  ["am", "pm", "morning", "afternoon", "evening"]

/-- `_fallback_intent_analysis`: keyword-based intent analysis, rules tried
in source order. -/
def fallback_intent_analysis (message : String) (context : AppointmentContext) :
    IntentAnalysis :=
  let message_lower := pyLower message
  if booking_keywords.any (fun kw => pyContains message_lower kw) then
    { intent := "booking", city := find_city_from_text message, confidence := mkRat 8 10 }
  else if greeting_keywords.any (fun kw => pyContains message_lower kw) then
    { intent := "greeting", confidence := mkRat 9 10 }
  else
    let city := find_city_from_text message
    if city.isSome || context.state = ConversationState.WAITING_LOCATION then
      { intent := "location", city := city, confidence := mkRat 7 10 }
    else if time_keywords.any (fun kw => pyContains message_lower kw)
        || context.state = ConversationState.WAITING_TIME_SLOT then
      { intent := "time_selection", time_preference := some message, confidence := mkRat 7 10 }
    else
      { intent := "other", confidence := mkRat 1 2 }

/-! ### The conversation state machine (`update_context_state`) -/

/-- Rule 1 of `update_context_state`: `if intent.city and not context.city`.
Python truthiness: an empty-string city counts as absent. -/
def adoptCity (c : AppointmentContext) (i : IntentAnalysis) : AppointmentContext :=
  if optStrTruthy i.city && !optStrTruthy c.city then { c with city := i.city } else c

/-- Rule 2 of `update_context_state`: select the first center of the
context's city whose lower-cased name contains the lower-cased
`center_preference`. -/
def selectCenterByPref (c : AppointmentContext) (i : IntentAnalysis) : AppointmentContext :=
  if optStrTruthy i.center_preference && optStrTruthy c.city then
    let centers_in_city := get_service_centers_by_city (c.city.getD "")
    let pref_lower := pyLower (i.center_preference.getD "")
    match centers_in_city.find? (fun center => pyContains (pyLower center.name) pref_lower) with
    | some center => { c with selected_center := some center }
    | none => c
  else c

/-- Rule 3 of `update_context_state`: select the first slot whose time label
contains, or is contained in, the lower-cased `time_preference`. -/
def selectSlotByPref (c : AppointmentContext) (i : IntentAnalysis) : AppointmentContext :=
  if optStrTruthy i.time_preference then
    let pref_lower := pyLower (i.time_preference.getD "")
    match AVAILABLE_TIME_SLOTS.find? (fun slot =>
        pyContains pref_lower (pyLower slot.time) || pyContains (pyLower slot.time) pref_lower) with
    | some slot => { c with selected_time_slot := some slot }
    | none => c
  else c

/-- Rule 4 of `update_context_state`: advance the state machine keyed on the
intent label. -/
def advanceState (c : AppointmentContext) (i : IntentAnalysis) : AppointmentContext :=
  if i.intent = "greeting" then
    if optStrTruthy c.city && c.state = ConversationState.INITIAL then
      { c with state := .WAITING_CENTER_SELECTION }
    else c
  else if i.intent = "booking" then
    if !optStrTruthy c.city then { c with state := .WAITING_LOCATION }
    else if !c.selected_center.isSome then { c with state := .WAITING_CENTER_SELECTION }
    else if !c.selected_time_slot.isSome then { c with state := .WAITING_TIME_SLOT }
    else c
  else if i.intent = "location" then { c with state := .WAITING_CENTER_SELECTION }
  else if i.intent = "center_selection" then { c with state := .WAITING_TIME_SLOT }
  else if i.intent = "time_selection" then
    if c.selected_center.isSome then { c with state := .CONFIRMING_APPOINTMENT } else c
  else if i.intent = "confirmation" then { c with state := .COMPLETED }
  else c

/-- Rule 5 of `update_context_state`: persist the appointment exactly once.
The returned boolean records whether `_record_appointment` was invoked on
this turn. -/
def recordStep (c : AppointmentContext) : AppointmentContext × Bool :=
  if c.state = ConversationState.COMPLETED && c.selected_center.isSome
      && c.selected_time_slot.isSome && !c.appointment_saved then
    ({ c with appointment_saved := true }, true)
  else (c, false)

/-- `update_context_state`: the full per-turn transition.  Returns the
mutated context and whether the Appointment Recorder ran. -/
def update_context_state (c : AppointmentContext) (i : IntentAnalysis) :
    AppointmentContext × Bool :=
  recordStep (advanceState (selectSlotByPref (selectCenterByPref (adoptCity c i) i) i) i)

/-- Process a sequence of turns (one extracted intent per turn) through
`update_context_state`, counting Appointment Recorder invocations. -/
def runTurns (c : AppointmentContext) : List IntentAnalysis → AppointmentContext × ℕ
  | [] => (c, 0)
  | i :: is =>
    let step := update_context_state c i
    let rest := runTurns step.1 is
    (rest.1, (if step.2 then 1 else 0) + rest.2)

/-- `_handle_location`, context effects only (the returned prose is not
modelled; this handler is not reached from `process_message`, which drives
`update_context_state` instead). -/
def handle_location (i : IntentAnalysis) (c : AppointmentContext) : AppointmentContext :=
  let city := if optStrTruthy i.city then i.city else c.city
  if !optStrTruthy city then c
  else
    let cityVal := city.getD ""
    let centers := get_service_centers_by_city cityVal
    if centers.isEmpty then c
    else
      let c1 := { c with city := some cityVal, state := ConversationState.WAITING_CENTER_SELECTION }
      match centers with
      | [single] => { c1 with selected_center := some single,
                              state := ConversationState.WAITING_TIME_SLOT }
      | _ => c1

/-! ### JSON values and `json.loads` (Python `json` module, default options)

JSON numbers are modelled as exact rationals: the program stores and
compares them but performs no arithmetic, so float rounding is never
observable.  The tokens `NaN`, `Infinity`, `-Infinity` (accepted by
`json.loads` by default) get dedicated constructors. -/

inductive JsonValue where
  | null
  | bool (b : Bool)
  | num (q : ℚ)
  | str (s : String)
  | arr (elems : List JsonValue)
  | obj (fields : List (String × JsonValue))
  | nanValue
  | infValue
  | negInfValue
  deriving Repr

/-- Whether a JSON value is an object (a Python `dict`). -/
def JsonValue.isObj : JsonValue → Bool
  | .obj _ => true
  | _ => false

/-- Observer: the string payload, if any. -/
def JsonValue.asStr : JsonValue → Option String
  | .str s => some s
  | _ => none

/-- Observer: the numeric payload, if any. -/
def JsonValue.asNum : JsonValue → Option ℚ
  | .num q => some q
  | _ => none

/-- Observer: an object's field keys in order. -/
def JsonValue.objKeys : JsonValue → Option (List String)
  | .obj flds => some (flds.map Prod.fst)
  | _ => none

/-- Observer: look a field up in an object. -/
def JsonValue.objGet (v : JsonValue) (k : String) : Option JsonValue :=
  match v with
  | .obj flds => flds.lookup k
  | _ => none

/-- JSON whitespace skipped by the decoder: space, tab, newline, carriage
return only (narrower than Python's `str.strip`). -/
def jsonIsWs (c : Char) : Bool :=
  c == ' ' || c == '\t' || c == '\n' || c == '\r'

/-- Insert a key/value pair into an object under construction with Python
dict semantics: a duplicate key keeps its first position but takes the new
value. -/
def objInsert (flds : List (String × JsonValue)) (k : String) (v : JsonValue) :
    List (String × JsonValue) :=
  if flds.any (fun kv => kv.1 = k) then
    flds.map (fun kv => if kv.1 = k then (k, v) else kv)
  else flds ++ [(k, v)]

/-- Hexadecimal digit value. -/
def hexVal (c : Char) : Option ℕ :=
  if c.isDigit then some (c.toNat - 48)
  else if 'a' ≤ c && c ≤ 'f' then some (c.toNat - 87)
  else if 'A' ≤ c && c ≤ 'F' then some (c.toNat - 55)
  else none

/-- Parse exactly four hex digits. -/
def parse4Hex : List Char → Option (ℕ × List Char)
  | a :: b :: c :: d :: rest =>
    match hexVal a, hexVal b, hexVal c, hexVal d with
    | some x, some y, some z, some w => some (((x * 16 + y) * 16 + z) * 16 + w, rest)
    | _, _, _, _ => none
  | _ => none

/-- Parse the body of a JSON string after the opening quote (strict mode:
unescaped control characters are rejected; surrogate escape pairs are
combined; a lone surrogate, which Python keeps as an unpaired code unit not
representable as a Lean `Char`, degrades to `Char.ofNat`'s default). -/
def parseJStringBody (fuel : ℕ) (cs : List Char) : Option (List Char × List Char) :=
  match fuel with
  | 0 => none
  | fuel + 1 =>
    match cs with
    | [] => none
    | c :: rest =>
      if c == '"' then some ([], rest)
      else if c == '\\' then
        match rest with
        | [] => none
        | e :: rest' =>
          let simple : Option Char :=
            if e == '"' then some '"'
            else if e == '\\' then some '\\'
            else if e == '/' then some '/'
            else if e == 'b' then some '\x08'
            else if e == 'f' then some '\x0c'
            else if e == 'n' then some '\n'
            else if e == 'r' then some '\r'
            else if e == 't' then some '\t'
            else none
          match simple with
          | some d =>
            match parseJStringBody fuel rest' with
            | some (tailChars, rem) => some (d :: tailChars, rem)
            | none => none
          | none =>
            if e == 'u' then
              match parse4Hex rest' with
              | none => none
              | some (n, rest2) =>
                if 0xD800 ≤ n && n ≤ 0xDBFF then
                  match rest2 with
                  | '\\' :: 'u' :: rest3 =>
                    match parse4Hex rest3 with
                    | some (m, rest4) =>
                      if 0xDC00 ≤ m && m ≤ 0xDFFF then
                        let code := 0x10000 + (n - 0xD800) * 0x400 + (m - 0xDC00)
                        match parseJStringBody fuel rest4 with
                        | some (tailChars, rem) => some (Char.ofNat code :: tailChars, rem)
                        | none => none
                      else
                        match parseJStringBody fuel rest4 with
                        | some (tailChars, rem) =>
                          some (Char.ofNat n :: Char.ofNat m :: tailChars, rem)
                        | none => none
                    | none =>
                      match parseJStringBody fuel rest2 with
                      | some (tailChars, rem) => some (Char.ofNat n :: tailChars, rem)
                      | none => none
                  | _ =>
                    match parseJStringBody fuel rest2 with
                    | some (tailChars, rem) => some (Char.ofNat n :: tailChars, rem)
                    | none => none
                else
                  match parseJStringBody fuel rest2 with
                  | some (tailChars, rem) => some (Char.ofNat n :: tailChars, rem)
                  | none => none
            else none
      else if c.toNat < 0x20 then none
      else
        match parseJStringBody fuel rest with
        | some (tailChars, rem) => some (c :: tailChars, rem)
        | none => none

/-- Digit-run helper. -/
def takeDigits (cs : List Char) : List Char × List Char :=
  (cs.takeWhile Char.isDigit, cs.dropWhile Char.isDigit)

/-- Natural number denoted by a digit run. -/
def digitsToNat (ds : List Char) : ℕ :=
  ds.foldl (fun acc c => acc * 10 + (c.toNat - 48)) 0

/-- Parse a JSON number per the decoder's regular expression
`-?(0|[1-9]\d*)(\.\d+)?([eE][+-]?\d+)?` into an exact rational. -/
def parseJNumber (cs : List Char) : Option (ℚ × List Char) :=
  let signed : Bool × List Char :=
    match cs with
    | '-' :: rest => (true, rest)
    | _ => (false, cs)
  let (neg, cs1) := signed
  match takeDigits cs1 with
  | ([], _) => none
  | (intDs, cs2) =>
    if intDs.length > 1 && intDs.headD '0' == '0' then none
    else
      let fracStep : Option (List Char × List Char) :=
        match cs2 with
        | '.' :: cs3 =>
          match takeDigits cs3 with
          | ([], _) => none
          | (fds, cs4) => some (fds, cs4)
        | _ => some ([], cs2)
      match fracStep with
      | none => none
      | some (fracDs, cs5) =>
        let expStep : Option (Bool × List Char × List Char) :=
          match cs5 with
          | 'e' :: cs6 | 'E' :: cs6 =>
            let esigned : Bool × List Char :=
              match cs6 with
              | '+' :: r => (false, r)
              | '-' :: r => (true, r)
              | _ => (false, cs6)
            match takeDigits esigned.2 with
            | ([], _) => none
            | (eds, cs7) => some (esigned.1, eds, cs7)
          | _ => some (false, [], cs5)
        match expStep with
        | none => none
        | some (eneg, expDs, cs8) =>
          let mantNum : ℕ := digitsToNat intDs * 10 ^ fracDs.length + digitsToNat fracDs
          let e : ℕ := digitsToNat expDs
          let numerator : ℕ := if eneg then mantNum else mantNum * 10 ^ e
          let denominator : ℕ := if eneg then 10 ^ (fracDs.length + e) else 10 ^ fracDs.length
          let q : ℚ := mkRat (Int.ofNat numerator) denominator
          some ((if neg then -q else q), cs8)

mutual

/-- Recursive-descent JSON value parser (fuel-indexed; the fuel passed at
top level always suffices because every recursive call consumes input). -/
def parseJValue (fuel : ℕ) (cs : List Char) : Option (JsonValue × List Char) :=
  match fuel with
  | 0 => none
  | fuel + 1 =>
    match cs with
    | [] => none
    | c :: rest =>
      if c == '{' then
        let cs1 := rest.dropWhile jsonIsWs
        match cs1 with
        | '}' :: cs2 => some (.obj [], cs2)
        | _ => parseJMembers fuel cs1 []
      else if c == '[' then
        let cs1 := rest.dropWhile jsonIsWs
        match cs1 with
        | ']' :: cs2 => some (.arr [], cs2)
        | _ => parseJElems fuel cs1 []
      else if c == '"' then
        match parseJStringBody fuel rest with
        | some (body, rem) => some (.str (String.mk body), rem)
        | none => none
      else if ['t', 'r', 'u', 'e'].isPrefixOf cs then some (.bool true, cs.drop 4)
      else if ['f', 'a', 'l', 's', 'e'].isPrefixOf cs then some (.bool false, cs.drop 5)
      else if ['n', 'u', 'l', 'l'].isPrefixOf cs then some (.null, cs.drop 4)
      else if ['N', 'a', 'N'].isPrefixOf cs then some (.nanValue, cs.drop 3)
      else if ['I', 'n', 'f', 'i', 'n', 'i', 't', 'y'].isPrefixOf cs then
        some (.infValue, cs.drop 8)
      else if ['-', 'I', 'n', 'f', 'i', 'n', 'i', 't', 'y'].isPrefixOf cs then
        some (.negInfValue, cs.drop 9)
      else
        match parseJNumber cs with
        | some (q, rem) => some (.num q, rem)
        | none => none

/-- Parse the members of an object after `{` (first key expected next). -/
def parseJMembers (fuel : ℕ) (cs : List Char) (acc : List (String × JsonValue)) :
    Option (JsonValue × List Char) :=
  match fuel with
  | 0 => none
  | fuel + 1 =>
    match cs with
    | '"' :: cs1 =>
      match parseJStringBody fuel cs1 with
      | none => none
      | some (keyChars, cs2) =>
        match cs2.dropWhile jsonIsWs with
        | ':' :: cs3 =>
          match parseJValue fuel (cs3.dropWhile jsonIsWs) with
          | none => none
          | some (v, cs4) =>
            let acc1 := objInsert acc (String.mk keyChars) v
            match cs4.dropWhile jsonIsWs with
            | ',' :: cs5 => parseJMembers fuel (cs5.dropWhile jsonIsWs) acc1
            | '}' :: cs5 => some (.obj acc1, cs5)
            | _ => none
        | _ => none
    | _ => none

/-- Parse the elements of an array after `[` (first element expected next). -/
def parseJElems (fuel : ℕ) (cs : List Char) (acc : List JsonValue) :
    Option (JsonValue × List Char) :=
  match fuel with
  | 0 => none
  | fuel + 1 =>
    match parseJValue fuel cs with
    | none => none
    | some (v, cs1) =>
      match cs1.dropWhile jsonIsWs with
      | ',' :: cs2 => parseJElems fuel (cs2.dropWhile jsonIsWs) (acc ++ [v])
      | ']' :: cs2 => some (.arr (acc ++ [v]), cs2)
      | _ => none

end

/-- `json.loads`.  `none` models a raised `json.JSONDecodeError` (leading
and trailing JSON whitespace allowed, anything else after the value is
"Extra data"). -/
def jsonLoads (s : String) : Option JsonValue :=
  let cs := s.toList
  match parseJValue (cs.length + 1) (cs.dropWhile jsonIsWs) with
  | some (v, rest) => if (rest.dropWhile jsonIsWs).isEmpty then some v else none
  | none => none

/-! ### `sanitize_llm_json_response` (`appointment_service.py`)

The four recovery strategies use concrete regular expressions; each is
modelled by a hand-rolled scanner implementing the same leftmost-match
semantics on `List Char` (the patterns are deterministic up to the two
optional quotes, whose one-step backtracking is written out explicitly). -/

/-- The backtick character (written via its code point). -/
def tickChar : Char := Char.ofNat 96

/-- The closing part of the strategy-2 pattern after the candidate group:
`\s*` followed by a triple-backtick fence. -/
def fenceTailOk (cs : List Char) : Bool :=
  [tickChar, tickChar, tickChar].isPrefixOf (cs.dropWhile pyIsSpace)

/-- Scan for the earliest `}` that is followed by a closing fence: the
non-greedy `(\{.*?\})` group of strategy 2 (`acc` holds the reversed group
so far). -/
def fenceBody (acc : List Char) : List Char → Option (List Char)
  | [] => none
  | c :: rest =>
    if c == '}' && fenceTailOk rest then some (('}' :: acc).reverse)
    else fenceBody (c :: acc) rest

/-- Try to match strategy 2's pattern
```` ```(?:json)?\s*(\{.*?\})\s*``` ```` (ignore-case, dot-all) at this
position, returning the captured group. -/
def fenceAt (cs : List Char) : Option (List Char) :=
  if [tickChar, tickChar, tickChar].isPrefixOf cs then
    let afterTicks := cs.drop 3
    let tryFrom (body : List Char) : Option (List Char) :=
      match body.dropWhile pyIsSpace with
      | '{' :: rest => fenceBody ['{'] rest
      | _ => none
    let withTag : Option (List Char) :=
      if (afterTicks.take 4).map Char.toLower == ['j', 's', 'o', 'n'] then
        tryFrom (afterTicks.drop 4)
      else none
    match withTag with
    | some g => some g
    | none => tryFrom afterTicks
  else none

/-- `re.search` for strategy 2: leftmost match wins. -/
def fenceSearch : List Char → Option (List Char)
  | [] => none
  | c :: rest =>
    match fenceAt (c :: rest) with
    | some g => some g
    | none => fenceSearch rest

/-- Characters allowed inside the bracket-free runs of strategy 3's
pattern. -/
def nonBrace (c : Char) : Bool := !(c == '{' || c == '}')

/-- After the opening `\{[^{}]*` part, consume `(?:\{[^{}]*\}[^{}]*)*\}`:
one level of nesting, failing exactly where the regex fails. -/
def braceLoop (fuel : ℕ) (acc : List Char) (cs : List Char) :
    Option (List Char × List Char) :=
  match fuel with
  | 0 => none
  | fuel + 1 =>
    match cs with
    | '}' :: rest => some (acc ++ ['}'], rest)
    | '{' :: rest =>
      let inner := rest.takeWhile nonBrace
      match rest.dropWhile nonBrace with
      | '}' :: r2 =>
        let outer := r2.takeWhile nonBrace
        braceLoop fuel (acc ++ '{' :: (inner ++ '}' :: outer)) (r2.dropWhile nonBrace)
      | _ => none
    | _ => none

/-- Try to match strategy 3's pattern `\{[^{}]*(?:\{[^{}]*\}[^{}]*)*\}` at
this position. -/
def braceAt (fuel : ℕ) (cs : List Char) : Option (List Char × List Char) :=
  match cs with
  | '{' :: rest =>
    braceLoop fuel ('{' :: rest.takeWhile nonBrace) (rest.dropWhile nonBrace)
  | _ => none

/-- `re.findall` for strategy 3: non-overlapping matches, left to right. -/
def braceFindAll (fuel : ℕ) (cs : List Char) : List (List Char) :=
  match fuel with
  | 0 => []
  | fuel + 1 =>
    match cs with
    | [] => []
    | c :: rest =>
      match braceAt fuel (c :: rest) with
      | some (m, r) => m :: braceFindAll fuel r
      | none => braceFindAll fuel rest

/-- Strategy-3 repair 1: `re.sub(r",\s*([}\]])", r"\1", ...)` — drop a comma
(and the whitespace after it) that directly precedes a closing bracket. -/
def subTrailingCommas (fuel : ℕ) (cs : List Char) : List Char :=
  match fuel with
  | 0 => cs
  | fuel + 1 =>
    match cs with
    | [] => []
    | ',' :: rest =>
      match rest.dropWhile pyIsSpace with
      | b :: r2 =>
        if b == '}' || b == ']' then b :: subTrailingCommas fuel r2
        else ',' :: subTrailingCommas fuel rest
      | [] => ',' :: subTrailingCommas fuel rest
    | c :: rest => c :: subTrailingCommas fuel rest

/-- Strategy-3 repair 2: `re.sub(r"(\w+):\s*", r'"\1": ', ...)` — quote a
bare word that directly precedes a colon. -/
def subQuoteBareKeys (fuel : ℕ) (cs : List Char) : List Char :=
  match fuel with
  | 0 => cs
  | fuel + 1 =>
    match cs with
    | [] => []
    | c :: rest =>
      if pyIsWord c then
        let w := (c :: rest).takeWhile pyIsWord
        match (c :: rest).dropWhile pyIsWord with
        | ':' :: r2 =>
          '"' :: (w ++ '"' :: ':' :: ' ' :: subQuoteBareKeys fuel (r2.dropWhile pyIsSpace))
        | r1 => w ++ subQuoteBareKeys fuel r1
      else c :: subQuoteBareKeys fuel rest

/-- Strategy-3 repair 3: `re.sub(r'"(\w+)"\s*:\s*', r'"\1": ', ...)` —
normalize the spacing of an already-quoted word key. -/
def subQuotedKeys (fuel : ℕ) (cs : List Char) : List Char :=
  match fuel with
  | 0 => cs
  | fuel + 1 =>
    match cs with
    | [] => []
    | c :: rest =>
      if c == '"' then
        let w := rest.takeWhile pyIsWord
        if w.isEmpty then c :: subQuotedKeys fuel rest
        else
          match rest.dropWhile pyIsWord with
          | '"' :: r2 =>
            match r2.dropWhile pyIsSpace with
            | ':' :: r3 =>
              '"' :: (w ++ '"' :: ':' :: ' ' :: subQuotedKeys fuel (r3.dropWhile pyIsSpace))
            | _ => c :: subQuotedKeys fuel rest
          | _ => c :: subQuotedKeys fuel rest
      else c :: subQuotedKeys fuel rest

/-- The cleanup applied to each strategy-3 candidate before parsing. -/
def cleanCandidate (s : String) : String :=
  let cs0 := (pyStrip s).toList
  let cs1 := subTrailingCommas (cs0.length + 1) cs0
  let cs2 := subQuoteBareKeys (cs1.length + 1) cs1
  String.mk (subQuotedKeys (cs2.length + 1) cs2)

/-- Strategy 3's loop: return the first candidate that parses after
cleanup. -/
def firstBraceParse : List (List Char) → Option JsonValue
  | [] => none
  | cand :: rest =>
    match jsonLoads (cleanCandidate (String.mk cand)) with
    | some v => some v
    | none => firstBraceParse rest

/-- Case-insensitive literal match of `key` (given lower-cased) at the head
of `cs`. -/
def ciPrefixAt (key : List Char) (cs : List Char) : Bool :=
  (cs.take key.length).map Char.toLower == key

/-- The `([^",\}]+)` capture group of the strategy-4 field patterns, with
the optional opening quote before it. -/
def valueGroup (cs : List Char) : Option (List Char) :=
  let cs1 :=
    match cs with
    | '"' :: r => r
    | _ => cs
  let g := cs1.takeWhile (fun c => !(c == '"' || c == ',' || c == '}'))
  if g.isEmpty then none else some g

/-- The `([0-9.]+)` capture group of the confidence pattern (no quote
allowed before the digits). -/
def confGroup (cs : List Char) : Option (List Char) :=
  let g := cs.takeWhile (fun c => c.isDigit || c == '.')
  if g.isEmpty then none else some g

/-- `\s*:\s*` followed by the value group. -/
def colonThen (gp : List Char → Option (List Char)) (cs : List Char) :
    Option (List Char) :=
  match cs.dropWhile pyIsSpace with
  | ':' :: r => gp (r.dropWhile pyIsSpace)
  | _ => none

/-- The optional quote after the key: try consuming it first, fall back to
not consuming it (regex backtracking order for `"?`). -/
def afterKeyPart (gp : List Char → Option (List Char)) (cs : List Char) :
    Option (List Char) :=
  match cs with
  | '"' :: r =>
    match colonThen gp r with
    | some g => some g
    | none => colonThen gp ('"' :: r)
  | _ => colonThen gp cs

/-- Try to match a strategy-4 pattern `"?KEY"?\s*:\s*<group>` (ignore-case)
at this position. -/
def keyValMatchAt (key : List Char) (gp : List Char → Option (List Char))
    (cs : List Char) : Option (List Char) :=
  match cs with
  | '"' :: r =>
    if ciPrefixAt key r then afterKeyPart gp (r.drop key.length) else none
  | _ =>
    if ciPrefixAt key cs then afterKeyPart gp (cs.drop key.length) else none

/-- `re.search` for a strategy-4 pattern: leftmost match wins. -/
def keyValSearch (key : List Char) (gp : List Char → Option (List Char)) :
    List Char → Option (List Char)
  | [] => none
  | c :: rest =>
    match keyValMatchAt key gp (c :: rest) with
    | some g => some g
    | none => keyValSearch key gp rest

/-- Python's `float(str)` as an exact rational:
`[sign] digits [. digits] [e [sign] digits]` after stripping whitespace.
Non-finite spellings (`inf`, `nan`), which exact rationals cannot carry,
are treated as coercion failures; no verified statement feeds them in. -/
def pyFloatQ (s : String) : Option ℚ :=
  let cs := (pyStrip s).toList
  let signed : Bool × List Char :=
    match cs with
    | '+' :: r => (false, r)
    | '-' :: r => (true, r)
    | _ => (false, cs)
  let (neg, cs1) := signed
  let ip := cs1.takeWhile Char.isDigit
  let r1 := cs1.dropWhile Char.isDigit
  let fracPart : List Char × List Char :=
    match r1 with
    | '.' :: t => (t.takeWhile Char.isDigit, t.dropWhile Char.isDigit)
    | _ => ([], r1)
  let (fp, r2) := fracPart
  if ip.isEmpty && fp.isEmpty then none
  else
    let expPart : Option (Bool × List Char × List Char) :=
      match r2 with
      | 'e' :: t | 'E' :: t =>
        let esigned : Bool × List Char :=
          match t with
          | '+' :: u => (false, u)
          | '-' :: u => (true, u)
          | _ => (false, t)
        let eds := esigned.2.takeWhile Char.isDigit
        if eds.isEmpty then none
        else some (esigned.1, eds, esigned.2.dropWhile Char.isDigit)
      | _ => some (false, [], r2)
    match expPart with
    | none => none
    | some (eneg, eds, r3) =>
      if !r3.isEmpty then none
      else
        let e := digitsToNat eds
        let mantNum := digitsToNat ip * 10 ^ fp.length + digitsToNat fp
        let numerator := if eneg then mantNum else mantNum * 10 ^ e
        let denominator := if eneg then 10 ^ (fp.length + e) else 10 ^ fp.length
        let q : ℚ := mkRat (Int.ofNat numerator) denominator
        some (if neg then -q else q)

/-- Strategy 4: field-by-field regex extraction.  Returns the extracted
mapping only when an `intent` field was found. -/
def strat4Extract (response : String) : Option JsonValue :=
  let cs := response.toList
  let intentM := keyValSearch "intent".toList valueGroup cs
  let cityM := keyValSearch "city".toList valueGroup cs
  let timeM := keyValSearch "time_preference".toList valueGroup cs
  let centerM := keyValSearch "center_preference".toList valueGroup cs
  let confM := keyValSearch "confidence".toList confGroup cs
  let cleanVal (g : List Char) : JsonValue :=
    .str (pyStripQuotes (pyStrip (String.mk g)))
  let keepVal (g : List Char) : Bool :=
    !(pyLower (String.mk g) = "null" || pyLower (String.mk g) = "none"
      || pyLower (String.mk g) = "")
  let e1 : List (String × JsonValue) :=
    match intentM with
    | some g => [("intent", cleanVal g)]
    | none => []
  let e2 :=
    match cityM with
    | some g => if keepVal g then e1 ++ [("city", cleanVal g)] else e1
    | none => e1
  let e3 :=
    match timeM with
    | some g => if keepVal g then e2 ++ [("time_preference", cleanVal g)] else e2
    | none => e2
  let e4 :=
    match centerM with
    | some g => if keepVal g then e3 ++ [("center_preference", cleanVal g)] else e3
    | none => e3
  let e5 :=
    match confM with
    | some g =>
      e4 ++ [("confidence", .num (match pyFloatQ (String.mk g) with
                                  | some q => q
                                  | none => mkRat 1 2))]
    | none => e4
  if e5.any (fun kv => kv.1 = "intent") then some (.obj e5) else none

/-- Strategies 3 then 4, shared by the two ways strategy 2 can fail. -/
def sanitizeTail34 (response : String) : Option JsonValue :=
  match firstBraceParse (braceFindAll (response.toList.length + 1) response.toList) with
  | some v => some v
  | none => strat4Extract response

/-- `sanitize_llm_json_response`.  A `.error` result would model a Python
exception escaping the function; every fallible operation inside
(`json.loads`, `float`) is matched on, mirroring the source's
`try`/`except` blocks, so every branch produces `.ok`. -/
def sanitize_llm_json_response (response : String) : Except Unit (Option JsonValue) :=
  if response = "" then .ok none
  else
    match jsonLoads (pyStrip response) with
    | some v => .ok (some v)
    | none =>
      match fenceSearch response.toList with
      | some g =>
        match jsonLoads (String.mk g) with
        | some v => .ok (some v)
        | none => .ok (sanitizeTail34 response)
      | none => .ok (sanitizeTail34 response)

/-! ### `analyze_intent` after recovery (`appointment_service.py`)

`analyze_intent` first invokes the external language model (out of scope);
everything after the raw response has been through
`sanitize_llm_json_response` is deterministic and is modelled here, as a
function of the recovery result. -/

/-- Python truthiness of a JSON value (`if value:`). -/
def pyTruthy : JsonValue → Bool
  | .null => false
  | .bool b => b
  | .num q => q ≠ 0
  | .str s => s ≠ ""
  | .arr l => !l.isEmpty
  | .obj f => !f.isEmpty
  | .nanValue => true
  | .infValue => true
  | .negInfValue => true

/-- The test `str(value).lower() in ["null", "none", ""]`.  `str(None)` is
`"None"`; `str` of a number, boolean, list or dict never spells `null`,
`none` or the empty string, so only string and `None` values can match. -/
def strNullLike : JsonValue → Bool
  | .str s => pyLower s = "null" || pyLower s = "none" || pyLower s = ""
  | .null => true
  | _ => false

/-- The cleaning loop of `analyze_intent`: keep a field only if its value
is truthy and does not spell null/none. -/
def cleanedData (flds : List (String × JsonValue)) : List (String × JsonValue) :=
  flds.filter (fun kv => pyTruthy kv.2 && !strNullLike kv.2)

/-- Pydantic (v2, lax mode) coercion to `str`: only actual strings are
accepted (numbers are not coerced to text). -/
def coerceStr : JsonValue → Option String
  | .str s => some s
  | _ => none

/-- Pydantic coercion to `Optional[str]`. -/
def coerceOptStr : JsonValue → Option (Option String)
  | .str s => some (some s)
  | .null => some none
  | _ => none

/-- Pydantic coercion to `float`: a number, or a numeric string via
`float()`; booleans and other shapes are rejected. -/
def coerceFloat : JsonValue → Option ℚ
  | .num q => some q
  | .str s => pyFloatQ s
  | _ => none

/-- `IntentAnalysis(**cleaned_data)`: pydantic construction.  `intent` is
required; the optional fields fall back to their declared defaults when
absent; present fields must coerce; extra keys are ignored; **no range or
label validation is declared on any field**.  `none` models a raised
`ValidationError`. -/
def intentAnalysisOfFields (flds : List (String × JsonValue)) : Option IntentAnalysis :=
  match flds.lookup "intent" with
  | none => none
  | some iv =>
    match coerceStr iv with
    | none => none
    | some intentStr =>
      let optStrField (k : String) : Option (Option String) :=
        match flds.lookup k with
        | none => some none
        | some v => coerceOptStr v
      match optStrField "city", optStrField "time_preference",
          optStrField "center_preference", optStrField "reasoning" with
      | some cityV, some timeV, some centerV, some reasonV =>
        match (match flds.lookup "confidence" with
               | none => some (mkRat 1 2)
               | some v => coerceFloat v) with
        | some conf =>
          some { intent := intentStr, city := cityV, time_preference := timeV,
                 center_preference := centerV, confidence := conf,
                 reasoning := reasonV }
        | none => none
      | _, _, _, _ => none

/-- The tail of `analyze_intent`, as a function of the recovery result: a
truthy dict is cleaned and fed to typed construction; a failed construction
(`ValidationError`), a non-dict value (whose `.items()` raises and is caught
by the outer handler) and a failed recovery all fall back to
`_fallback_intent_analysis`. -/
def analyze_intent_from_recovered (jsonData : Option JsonValue) (message : String)
    (context : AppointmentContext) : IntentAnalysis :=
  match jsonData with
  | some v =>
    if pyTruthy v then
      match v with
      | .obj flds =>
        match intentAnalysisOfFields (cleanedData flds) with
        | some ia => ia
        | none => fallback_intent_analysis message context
      | _ => fallback_intent_analysis message context
    else fallback_intent_analysis message context
  | none => fallback_intent_analysis message context

/-! ### Context persistence (`context_manager.py`)

`_save_context_to_file` serializes the context dict (enum as its `.value`
string, nested models field for field) to JSON; `_load_context_from_file`
parses it back, re-coercing the state string through the enum.  The JSON
text layer (`json.dump`/`json.load` of these dicts) is inverse for the
value shapes involved and is not re-modelled; the dict-level encoding the
code performs is. -/

/-- The on-disk shape of a persisted context (`last_message_time`, stored
as an ISO timestamp and restored verbatim, is elided with the field). -/
structure PersistedContext where
  user_id : String
  state : String
  city : Option String
  selected_center : Option ServiceCenter
  selected_time_slot : Option TimeSlot
  appointment_saved : Bool
  deriving DecidableEq, Repr

/-- `_save_context_to_file`: the dict written to the user's context file. -/
def save_context_to_file (c : AppointmentContext) : PersistedContext :=
  { user_id := c.user_id
    state := c.state.value
    city := c.city
    selected_center := c.selected_center
    selected_time_slot := c.selected_time_slot
    appointment_saved := c.appointment_saved }

/-- `_load_context_from_file`: re-coerce the state string through the enum
(a bad value raises `ValueError`, caught and turned into `none`) and
rebuild the pydantic model. -/
def load_context_from_file (p : PersistedContext) : Option AppointmentContext :=
  match ConversationState.ofValue p.state with
  | none => none
  | some st =>
    some { user_id := p.user_id
           state := st
           city := p.city
           selected_center := p.selected_center
           selected_time_slot := p.selected_time_slot
           appointment_saved := p.appointment_saved }

/-! ### History bounding (`context_manager.py`) -/

/-- The redacted context summary stored with each history entry
(`_get_context_dict`). -/
structure HistorySummary where
  state : String
  city : Option String
  has_selected_center : Bool
  has_selected_time : Bool
  deriving DecidableEq, Repr

/-- One entry of the per-user history log (timestamps are opaque text). -/
structure HistoryEntryRec where
  timestamp : String
  user_message : String
  bot_response : String
  context : HistorySummary
  deriving DecidableEq, Repr

/-- `_append_to_history_file` on the loaded history list: append, then keep
only the most recent 50 entries (`history_data[-50:]`). -/
def append_to_history (h : List HistoryEntryRec) (e : HistoryEntryRec) :
    List HistoryEntryRec :=
  let h2 := h ++ [e]
  if 50 < h2.length then h2.drop (h2.length - 50) else h2

/-- A sequence of appends for one user id. -/
def runAppends (h : List HistoryEntryRec) (es : List HistoryEntryRec) :
    List HistoryEntryRec :=
  es.foldl append_to_history h

end LucidChatbot

namespace LucidChatbot

/-! ### Named constants and statement-level helpers -/

/-- The first Riyadh entry of the directory. -/
def riyadhDowntownCenter : ServiceCenter :=
  { name := "Lucid Service Center - Riyadh Downtown", city := "Riyadh",
    address := "King Fahd Road, Riyadh 12345", phone := "+966-11-123-4567" }

/-- The single Makkah entry of the directory. -/
def makkahCenter : ServiceCenter :=
  { name := "Lucid Service Center - Makkah", city := "Makkah",
    address := "King Abdulaziz Road, Makkah 21955", phone := "+966-12-345-6789" }

/-- The first slot of the effective catalog. -/
def slot10am17 : TimeSlot := { time := "10 AM", date := "July 17th" }

/-- Turn 1 of the end-to-end scenario: the analysis the deterministic
keyword analyzer itself produces for the booking message. -/
def u1Turn1 : IntentAnalysis :=
  fallback_intent_analysis "I need to book a service in Riyadh" (freshContext "U1")

/-- Turn 2 of the end-to-end scenario: a center-selection intent carrying
the extracted preference "downtown". -/
def u1Turn2 : IntentAnalysis :=
  { intent := "center_selection", center_preference := some "downtown",
    confidence := mkRat 9 10 }

/-- Turn 3 of the end-to-end scenario: a time-selection intent carrying the
extracted preference "10 AM". -/
def u1Turn3 : IntentAnalysis :=
  { intent := "time_selection", time_preference := some "10 AM",
    confidence := mkRat 9 10 }

/-- The three scenario turns processed from a fresh context for `U1`. -/
def u1Run : AppointmentContext × ℕ :=
  runTurns (freshContext "U1") [u1Turn1, u1Turn2, u1Turn3]

/-- A bare confirmation intent (as the state machine would receive for a
"yes" turn). -/
def confirmationIntent : IntentAnalysis := { intent := "confirmation" }

/-- A confirmation intent that also carries city, center and time
preferences, so that one turn can complete a booking from scratch. -/
def confirmAllIntent : IntentAnalysis :=
  { intent := "confirmation", city := some "Riyadh",
    center_preference := some "downtown", time_preference := some "10 AM",
    confidence := mkRat 9 10 }

/-- A location intent naming Makkah, the single-center city of the claim. -/
def makkahLocationIntent : IntentAnalysis :=
  { intent := "location", city := some "Makkah", confidence := mkRat 7 10 }

/-- A context waiting for a location, as after a booking request without a
city. -/
def waitingLocationCtx : AppointmentContext :=
  { user_id := "u2", state := .WAITING_LOCATION }

/-- The round-trip scenario context of the claim: `WAITING_TIME_SLOT`,
city Jeddah. -/
def jeddahContext : AppointmentContext :=
  { user_id := "u7", state := .WAITING_TIME_SLOT, city := some "Jeddah" }

/-- A concrete history entry for the bounding scenario. -/
def histEntryExample : HistoryEntryRec :=
  { timestamp := "2024-07-01T10:00:00", user_message := "hi",
    bot_response := "hello",
    context := { state := "initial", city := none,
                 has_selected_center := false, has_selected_time := false } }

/-- The fixed intent label set named by the specification. -/
def knownIntentLabels : List String :=
  ["booking", "greeting", "location", "center_selection", "time_selection",
   "confirmation", "other"]

/-- The confidence the specification prescribes for each fallback rule. -/
def prescribedConfidence (intent : String) : ℚ :=
  if intent = "booking" then mkRat 8 10
  else if intent = "greeting" then mkRat 9 10
  else if intent = "location" then mkRat 7 10
  else if intent = "time_selection" then mkRat 7 10
  else mkRat 1 2

/-- Whether any keyword of the list occurs in the lower-cased message. -/
def hasKeyword (kws : List String) (message : String) : Bool :=
  kws.any (fun kw => pyContains (pyLower message) kw)

/-- The value strategy 2 contributes: the parse of the fenced group, when a
fence is found. -/
def strat2Result (s : String) : Option JsonValue :=
  match fenceSearch s.toList with
  | some g => jsonLoads (String.mk g)
  | none => none

/-- The most recent `n` elements of a list, in order. -/
def takeLast (n : ℕ) (l : List HistoryEntryRec) : List HistoryEntryRec :=
  (l.reverse.take n).reverse

end LucidChatbot

namespace LucidChatbot

/-! ### State machine lemmas -/

/-- The slot-filling rules 1-3 never touch the conversation state. -/
lemma applyPrefs_state (c : AppointmentContext) (i : IntentAnalysis) :
    (selectSlotByPref (selectCenterByPref (adoptCity c i) i) i).state = c.state := by
  unfold adoptCity selectCenterByPref selectSlotByPref
  dsimp only
  repeat' split
  all_goals rfl

/-- The slot-filling rules 1-3 never touch the saved flag. -/
lemma applyPrefs_saved (c : AppointmentContext) (i : IntentAnalysis) :
    (selectSlotByPref (selectCenterByPref (adoptCity c i) i) i).appointment_saved
      = c.appointment_saved := by
  unfold adoptCity selectCenterByPref selectSlotByPref
  dsimp only
  repeat' split
  all_goals rfl

/-- Rule 4 only ever changes the state field. -/
lemma advanceState_saved (c : AppointmentContext) (i : IntentAnalysis) :
    (advanceState c i).appointment_saved = c.appointment_saved := by
  unfold advanceState
  repeat' split
  all_goals rfl

/-- Rule 5 never changes the state field. -/
lemma recordStep_state (c : AppointmentContext) :
    (recordStep c).1.state = c.state := by
  unfold recordStep
  split
  all_goals rfl

/-- Rule 5 flips the saved flag exactly when it fires. -/
lemma recordStep_saved (c : AppointmentContext) :
    (recordStep c).1.appointment_saved = (c.appointment_saved || (recordStep c).2) := by
  unfold recordStep
  split
  · rename_i h
    simp only [Bool.and_eq_true, Bool.not_eq_true'] at h
    simp [h.2]
  · simp

/-- When rule 5 fires, the flag was previously clear and the resulting
context is a completed booking with center and slot set. -/
lemma recordStep_fired (c : AppointmentContext) :
    (recordStep c).2 = true →
    c.appointment_saved = false
    ∧ (recordStep c).1.state = ConversationState.COMPLETED
    ∧ (recordStep c).1.selected_center.isSome = true
    ∧ (recordStep c).1.selected_time_slot.isSome = true := by
  unfold recordStep
  split
  · rename_i h
    intro _
    simp only [Bool.and_eq_true, Bool.not_eq_true', decide_eq_true_eq] at h
    exact ⟨h.2, h.1.1.1, h.1.1.2, h.1.2⟩
  · intro h
    exact absurd h (by simp)

/-- The per-turn saved flag equation. -/
lemma update_saved_eq (c : AppointmentContext) (i : IntentAnalysis) :
    (update_context_state c i).1.appointment_saved
      = (c.appointment_saved || (update_context_state c i).2) := by
  unfold update_context_state
  rw [recordStep_saved, advanceState_saved, applyPrefs_saved]

/-- When a turn fires the Recorder, the flag was previously clear and the
resulting context is a completed booking with center and slot set. -/
lemma update_fired (c : AppointmentContext) (i : IntentAnalysis) :
    (update_context_state c i).2 = true →
    c.appointment_saved = false
    ∧ (update_context_state c i).1.state = ConversationState.COMPLETED
    ∧ (update_context_state c i).1.selected_center.isSome = true
    ∧ (update_context_state c i).1.selected_time_slot.isSome = true := by
  unfold update_context_state
  intro h
  obtain ⟨h1, h2, h3, h4⟩ := recordStep_fired _ h
  rw [advanceState_saved, applyPrefs_saved] at h1
  exact ⟨h1, h2, h3, h4⟩

/-- Unfolding equation for `runTurns` on a cons cell. -/
lemma runTurns_cons (c : AppointmentContext) (i : IntentAnalysis)
    (is : List IntentAnalysis) :
    runTurns c (i :: is)
      = ((runTurns (update_context_state c i).1 is).1,
         (if (update_context_state c i).2 then 1 else 0)
           + (runTurns (update_context_state c i).1 is).2) := rfl

/-- `runTurns` over a sequence with one more turn at the end. -/
lemma runTurns_append (c : AppointmentContext) (l : List IntentAnalysis)
    (i : IntentAnalysis) :
    runTurns c (l ++ [i])
      = ((update_context_state (runTurns c l).1 i).1,
         (runTurns c l).2
           + (if (update_context_state (runTurns c l).1 i).2 then 1 else 0)) := by
  induction l generalizing c with
  | nil => simp [runTurns]
  | cons j js ih =>
    simp only [List.cons_append, runTurns_cons, ih, Nat.add_assoc]

/-- Main invariant: starting from a saved context nothing ever fires again;
starting from an unsaved context the flag tracks a fire count of at most
one. -/
lemma runTurns_inv (l : List IntentAnalysis) : ∀ c : AppointmentContext,
    (c.appointment_saved = true →
      (runTurns c l).1.appointment_saved = true ∧ (runTurns c l).2 = 0)
    ∧ (c.appointment_saved = false →
      ((runTurns c l).1.appointment_saved = true ↔ (runTurns c l).2 = 1)
      ∧ (runTurns c l).2 ≤ 1) := by
  induction l with
  | nil =>
    intro c
    refine ⟨fun h => ⟨h, rfl⟩, fun h => ⟨?_, by simp [runTurns]⟩⟩
    show (c.appointment_saved = true ↔ 0 = 1)
    simp [h]
  | cons i is ih =>
    intro c
    have hsaved := update_saved_eq c i
    constructor
    · intro h
      have hf : (update_context_state c i).2 = false := by
        cases hf' : (update_context_state c i).2
        · rfl
        · rw [(update_fired c i hf').1] at h
          cases h
      have h1 : (update_context_state c i).1.appointment_saved = true := by
        rw [hsaved, h, hf]
        rfl
      obtain ⟨ha, hb⟩ := (ih (update_context_state c i).1).1 h1
      rw [runTurns_cons]
      exact ⟨ha, by simp [hf, hb]⟩
    · intro h
      cases hf : (update_context_state c i).2 with
      | true =>
        have h1 : (update_context_state c i).1.appointment_saved = true := by
          rw [hsaved, h, hf]
          rfl
        obtain ⟨ha, hb⟩ := (ih (update_context_state c i).1).1 h1
        rw [runTurns_cons]
        constructor
        · simp [hf, ha, hb]
        · simp [hf, hb]
      | false =>
        have h1 : (update_context_state c i).1.appointment_saved = false := by
          rw [hsaved, h, hf]
          rfl
        obtain ⟨hiff, hle⟩ := (ih (update_context_state c i).1).2 h1
        rw [runTurns_cons]
        constructor
        · simpa [hf] using hiff
        · simpa [hf] using hle

/-- C1: for every sequence of turns processed through
`update_context_state` from a fresh context, the Appointment Recorder runs
at most once, after each turn `appointment_saved` holds exactly when the
Recorder has run, and the false-to-true flip of `appointment_saved` happens
only on a turn whose resulting state is `COMPLETED` with both a selected
center and a selected time slot. -/
theorem exactly_once_recording (u : String) (l : List IntentAnalysis) :
    (runTurns (freshContext u) l).2 ≤ 1
    ∧ ((runTurns (freshContext u) l).1.appointment_saved = true
        ↔ (runTurns (freshContext u) l).2 = 1)
    ∧ (∀ i : IntentAnalysis,
        (runTurns (freshContext u) l).1.appointment_saved = false →
        (runTurns (freshContext u) (l ++ [i])).1.appointment_saved = true →
        (runTurns (freshContext u) (l ++ [i])).1.state = ConversationState.COMPLETED
        ∧ (runTurns (freshContext u) (l ++ [i])).1.selected_center.isSome = true
        ∧ (runTurns (freshContext u) (l ++ [i])).1.selected_time_slot.isSome = true) := by
  have hfresh : (freshContext u).appointment_saved = false := rfl
  obtain ⟨hiff, hle⟩ := (runTurns_inv l (freshContext u)).2 hfresh
  refine ⟨hle, hiff, ?_⟩
  intro i h0 h1
  rw [runTurns_append] at h1 ⊢
  have hfired : (update_context_state (runTurns (freshContext u) l).1 i).2 = true := by
    have heq := update_saved_eq (runTurns (freshContext u) l).1 i
    rw [h1, h0] at heq
    cases hf : (update_context_state (runTurns (freshContext u) l).1 i).2
    · rw [hf] at heq
      cases heq
    · rfl
  obtain ⟨_, h2, h3, h4⟩ := update_fired _ _ hfired
  exact ⟨h2, h3, h4⟩

/-- Witness for C1: the flip on a concrete completing turn lands in
`COMPLETED` with center and slot set. -/
theorem exactly_once_recording_witness :
    (runTurns (freshContext "U1") []).1.appointment_saved = false
    ∧ (runTurns (freshContext "U1") ([] ++ [confirmAllIntent])).1.appointment_saved = true
    ∧ ((runTurns (freshContext "U1") ([] ++ [confirmAllIntent])).1.state
          = ConversationState.COMPLETED
       ∧ (runTurns (freshContext "U1") ([] ++ [confirmAllIntent])).1.selected_center.isSome = true
       ∧ (runTurns (freshContext "U1") ([] ++ [confirmAllIntent])).1.selected_time_slot.isSome = true) :=
  ⟨by decide, by decide,
   (exactly_once_recording "U1" []).2.2 confirmAllIntent (by decide) (by decide)⟩

end LucidChatbot

namespace LucidChatbot

/-- A `location` intent always drives the state to
`WAITING_CENTER_SELECTION`, whatever the context. -/
lemma update_state_location (c : AppointmentContext) (i : IntentAnalysis)
    (h : i.intent = "location") :
    (update_context_state c i).1.state = ConversationState.WAITING_CENTER_SELECTION := by
  unfold update_context_state
  rw [recordStep_state]
  unfold advanceState
  rw [h]
  simp

/-- C2 counterexample: the three-turn `U1` scenario (booking in Riyadh,
"downtown", "10 AM") ends in `CONFIRMING_APPOINTMENT`, not `COMPLETED`; the
Recorder never runs and `appointment_saved` stays false. -/
theorem u1_scenario_not_completed :
    u1Run.1.state = ConversationState.CONFIRMING_APPOINTMENT
    ∧ u1Run.1.state ≠ ConversationState.COMPLETED
    ∧ u1Run.1.appointment_saved = false
    ∧ u1Run.2 = 0 := by decide

/-- C2 as amended: the scenario selects the Riyadh Downtown center and the
10 AM / July 17th slot as claimed, but ends in `CONFIRMING_APPOINTMENT`
with nothing recorded; one further confirmation turn reaches `COMPLETED`,
invokes the Recorder exactly once, and sets `appointment_saved`. -/
theorem u1_scenario_reaches_confirming :
    u1Turn1.intent = "booking"
    ∧ u1Turn1.city = some "Riyadh"
    ∧ u1Run.1.selected_center = some riyadhDowntownCenter
    ∧ u1Run.1.selected_time_slot = some slot10am17
    ∧ u1Run.1.state = ConversationState.CONFIRMING_APPOINTMENT
    ∧ u1Run.1.appointment_saved = false
    ∧ u1Run.2 = 0
    ∧ (runTurns (freshContext "U1") [u1Turn1, u1Turn2, u1Turn3, confirmationIntent]).1.state
        = ConversationState.COMPLETED
    ∧ (runTurns (freshContext "U1") [u1Turn1, u1Turn2, u1Turn3, confirmationIntent]).1.appointment_saved
        = true
    ∧ (runTurns (freshContext "U1") [u1Turn1, u1Turn2, u1Turn3, confirmationIntent]).2 = 1 := by
  decide

/-- C9 counterexample: a location intent naming Makkah — a city with exactly
one directory entry — still lands the live state machine in
`WAITING_CENTER_SELECTION` with no center selected. -/
theorem location_intent_does_not_skip_center_selection :
    (get_service_centers_by_city "Makkah").length = 1
    ∧ (update_context_state (freshContext "m") makkahLocationIntent).1.state
        = ConversationState.WAITING_CENTER_SELECTION
    ∧ (update_context_state (freshContext "m") makkahLocationIntent).1.state
        ≠ ConversationState.WAITING_TIME_SLOT
    ∧ (update_context_state (freshContext "m") makkahLocationIntent).1.selected_center
        = none := by decide

/-- C9 as amended: the single-center shortcut lives in `_handle_location`
(which `process_message` never reaches): there, a known location whose city
has exactly one center selects that center and moves straight to
`WAITING_TIME_SLOT`; the live path through `update_context_state` instead
enters `WAITING_CENTER_SELECTION` on every location intent. -/
theorem single_center_shortcut_in_handler :
    (∀ (i : IntentAnalysis) (c : AppointmentContext) (city : String) (sc : ServiceCenter),
      (if optStrTruthy i.city then i.city else c.city) = some city →
      get_service_centers_by_city city = [sc] →
      (handle_location i c).state = ConversationState.WAITING_TIME_SLOT
      ∧ (handle_location i c).selected_center = some sc
      ∧ (handle_location i c).city = some city)
    ∧ (∀ (c : AppointmentContext) (i : IntentAnalysis), i.intent = "location" →
        (update_context_state c i).1.state = ConversationState.WAITING_CENTER_SELECTION) := by
  constructor
  · intro i c city sc h1 h2
    have hne : city ≠ "" := by
      intro h0
      rw [h0] at h2
      have h3 : get_service_centers_by_city "" = [] := rfl
      rw [h3] at h2
      cases h2
    have htr : optStrTruthy (some city) = true := by
      simp [optStrTruthy, hne]
    unfold handle_location
    rw [h1]
    simp [htr, h2]
  · intro c i h
    exact update_state_location c i h

/-- Witness for C9's amended statement at the concrete Makkah scenario. -/
theorem single_center_shortcut_in_handler_witness :
    (if optStrTruthy makkahLocationIntent.city then makkahLocationIntent.city
     else (freshContext "m").city) = some "Makkah"
    ∧ get_service_centers_by_city "Makkah" = [makkahCenter]
    ∧ ((handle_location makkahLocationIntent (freshContext "m")).state
          = ConversationState.WAITING_TIME_SLOT
       ∧ (handle_location makkahLocationIntent (freshContext "m")).selected_center
          = some makkahCenter
       ∧ (handle_location makkahLocationIntent (freshContext "m")).city = some "Makkah")
    ∧ makkahLocationIntent.intent = "location"
    ∧ (update_context_state (freshContext "m") makkahLocationIntent).1.state
        = ConversationState.WAITING_CENTER_SELECTION :=
  ⟨by decide, by decide,
   single_center_shortcut_in_handler.1 makkahLocationIntent (freshContext "m")
     "Makkah" makkahCenter (by decide) (by decide),
   by decide,
   single_center_shortcut_in_handler.2 (freshContext "m") makkahLocationIntent (by decide)⟩

/-- C10: a `location` intent sets `WAITING_CENTER_SELECTION` even when it
carries no city and the context has none; concretely, an unrecognizable
message sent while `WAITING_LOCATION` takes exactly this path through the
fallback analyzer, so `WAITING_CENTER_SELECTION` is reachable with the city
unset. -/
theorem waiting_center_selection_reachable_with_no_city :
    (∀ (c : AppointmentContext) (i : IntentAnalysis), i.intent = "location" →
      (update_context_state c i).1.state = ConversationState.WAITING_CENTER_SELECTION)
    ∧ (fallback_intent_analysis "xyz" waitingLocationCtx).intent = "location"
    ∧ (fallback_intent_analysis "xyz" waitingLocationCtx).city = none
    ∧ (update_context_state waitingLocationCtx
        (fallback_intent_analysis "xyz" waitingLocationCtx)).1.state
        = ConversationState.WAITING_CENTER_SELECTION
    ∧ (update_context_state waitingLocationCtx
        (fallback_intent_analysis "xyz" waitingLocationCtx)).1.city = none := by
  refine ⟨fun c i h => update_state_location c i h, by decide, by decide, by decide, by decide⟩

/-- Witness for C10's universally quantified part at a concrete input. -/
theorem waiting_center_selection_reachable_with_no_city_witness :
    makkahLocationIntent.intent = "location"
    ∧ (update_context_state waitingLocationCtx makkahLocationIntent).1.state
        = ConversationState.WAITING_CENTER_SELECTION :=
  ⟨by decide,
   waiting_center_selection_reachable_with_no_city.1 waitingLocationCtx
     makkahLocationIntent (by decide)⟩

/-- C7: persisting any context and reloading the persisted record restores
every field (state, city, center, slot, saved flag — and the user id); in
particular for the claim's `WAITING_TIME_SLOT` / Jeddah scenario. -/
theorem persist_roundtrip :
    (∀ c : AppointmentContext, load_context_from_file (save_context_to_file c) = some c)
    ∧ load_context_from_file (save_context_to_file jeddahContext) = some jeddahContext := by
  constructor
  · intro c
    rcases c with ⟨u, st, ci, ce, sl, sa⟩
    cases st <;> rfl
  · rfl

end LucidChatbot

namespace LucidChatbot

/-- A key asserted present by `List.any` is found by `List.lookup`. -/
lemma lookup_ne_none_of_any (l : List (String × JsonValue)) (k : String)
    (h : l.any (fun kv => kv.1 = k) = true) : l.lookup k ≠ none := by
  induction l with
  | nil => simp at h
  | cons kv rest ih =>
    simp only [List.any_cons, Bool.or_eq_true, decide_eq_true_eq] at h
    rcases kv with ⟨k', v'⟩
    by_cases hk : k' = k
    · subst hk
      simp [List.lookup]
    · have hne : (k == k') = false := by
        simp only [beq_eq_false_iff_ne, ne_eq]
        intro h0
        exact hk h0.symm
      simp only [List.lookup, hne]
      rcases h with h | h
      · exact absurd h hk
      · exact ih h

/-- Strategy 4 only ever returns an object carrying an `intent` field. -/
lemma strat4_has_intent (s : String) (v : JsonValue)
    (h : strat4Extract s = some v) :
    v.isObj = true ∧ v.objGet "intent" ≠ none := by
  unfold strat4Extract at h
  dsimp only at h
  split at h
  · rename_i hany
    injection h with h
    subst h
    refine ⟨rfl, ?_⟩
    show List.lookup "intent" _ ≠ none
    exact lookup_ne_none_of_any _ _ hany
  · cases h

/-- C3 counterexample: a syntactically valid object with no `intent` field
anywhere is returned by strategy 1 as a mapping, not turned into the
"no structure found" result. -/
theorem sanitize_returns_intentless_mapping :
    sanitize_llm_json_response "\x7b\"city\": \"Jeddah\"\x7d"
      = .ok (some (.obj [("city", .str "Jeddah")]))
    ∧ (JsonValue.obj [("city", .str "Jeddah")]).isObj = true
    ∧ (JsonValue.obj [("city", .str "Jeddah")]).objGet "intent" = none :=
  ⟨rfl, rfl, rfl⟩

/-- C3 as amended: only strategy 4 guarantees an `intent` field.  When
strategies 1-3 all fail, the result is strategy 4's: an object that always
carries `intent`, or the "no structure found" result when no `intent`
field is recognizable. -/
theorem no_structure_without_intent_in_strategy4 :
    ∀ s : String,
      jsonLoads (pyStrip s) = none →
      strat2Result s = none →
      firstBraceParse (braceFindAll (s.toList.length + 1) s.toList) = none →
      sanitize_llm_json_response s = .ok (strat4Extract s)
      ∧ (∀ v : JsonValue, strat4Extract s = some v →
          v.isObj = true ∧ v.objGet "intent" ≠ none) := by
  intro s h1 h2 h3
  refine ⟨?_, fun v hv => strat4_has_intent s v hv⟩
  unfold sanitize_llm_json_response
  by_cases hs : s = ""
  · subst hs
    rw [if_pos rfl]
    rfl
  · rw [if_neg hs]
    simp only [h1]
    cases hf : fenceSearch s.toList with
    | some g =>
      have hg : jsonLoads (String.mk g) = none := by
        unfold strat2Result at h2
        rw [hf] at h2
        exact h2
      simp only [hg]
      unfold sanitizeTail34
      rw [h3]
    | none =>
      unfold sanitizeTail34
      rw [h3]

/-- Witness for C3's amended statement: for "intent: booking" the first
three strategies fail and strategy 4 recovers a mapping with `intent`. -/
theorem no_structure_without_intent_in_strategy4_witness :
    jsonLoads (pyStrip "intent: booking") = none
    ∧ strat2Result "intent: booking" = none
    ∧ firstBraceParse (braceFindAll ("intent: booking".toList.length + 1)
        "intent: booking".toList) = none
    ∧ sanitize_llm_json_response "intent: booking"
        = .ok (strat4Extract "intent: booking")
    ∧ strat4Extract "intent: booking" = some (.obj [("intent", .str "booking")])
    ∧ ((JsonValue.obj [("intent", .str "booking")]).isObj = true
       ∧ (JsonValue.obj [("intent", .str "booking")]).objGet "intent" ≠ none) :=
  ⟨rfl, rfl, rfl,
   (no_structure_without_intent_in_strategy4 "intent: booking" rfl rfl rfl).1,
   rfl,
   (no_structure_without_intent_in_strategy4 "intent: booking" rfl rfl rfl).2 _ rfl⟩

/-- C5 counterexample: for input "5" strategy 1 succeeds and the function
returns the bare number 5 — neither a mapping of field names to values nor
the "no structure found" result. -/
theorem sanitize_returns_bare_number :
    sanitize_llm_json_response "5" = .ok (some (.num 5))
    ∧ (JsonValue.num 5).isObj = false :=
  ⟨rfl, rfl⟩

/-- C5 as amended: the function is total and never lets an exception
escape — every fallible parse inside is handled — but its success value is
whatever JSON value parsed, not necessarily a mapping. -/
theorem sanitize_never_raises (s : String) :
    ∃ r, sanitize_llm_json_response s = .ok r := by
  unfold sanitize_llm_json_response
  by_cases hs : s = ""
  · rw [if_pos hs]
    exact ⟨none, rfl⟩
  · rw [if_neg hs]
    cases h1 : jsonLoads (pyStrip s) with
    | some v =>
      refine ⟨some v, ?_⟩
      simp only [h1]
    | none =>
      simp only [h1]
      cases h2 : fenceSearch s.toList with
      | some g =>
        simp only [h2]
        cases h3 : jsonLoads (String.mk g) with
        | some v =>
          refine ⟨some v, ?_⟩
          simp only [h3]
        | none =>
          refine ⟨sanitizeTail34 s, ?_⟩
          simp only [h3]
      | none =>
        simp only [h2]
        exact ⟨sanitizeTail34 s, rfl⟩

/-- C4 counterexample: typed construction performs no range or label
validation — a recovered mapping with the unknown label "frobnicate" and
confidence 5 (outside [0,1]) is accepted verbatim, and the analysis does
not fall through to the keyword fallback. -/
theorem construction_accepts_out_of_range_intent :
    intentAnalysisOfFields
        (cleanedData [("intent", .str "frobnicate"), ("confidence", .num 5)])
      = some { intent := "frobnicate", confidence := 5 }
    ∧ knownIntentLabels.contains "frobnicate" = false
    ∧ (1 : ℚ) < 5
    ∧ analyze_intent_from_recovered
        (some (.obj [("intent", .str "frobnicate"), ("confidence", .num 5)]))
        "hello there" (freshContext "u")
        = { intent := "frobnicate", confidence := 5 }
    ∧ analyze_intent_from_recovered
        (some (.obj [("intent", .str "frobnicate"), ("confidence", .num 5)]))
        "hello there" (freshContext "u")
        ≠ fallback_intent_analysis "hello there" (freshContext "u") :=
  ⟨by decide, by decide, by norm_num, by decide, by decide⟩

/-- C4 as amended: the construction step validates presence and types only.
A recovered mapping whose cleaned fields lack an `intent` entry fails
construction and the analysis falls through to the keyword fallback;
out-of-range confidences and unknown labels are not rejected. -/
theorem recovered_mapping_without_intent_falls_back :
    ∀ (flds : List (String × JsonValue)) (m : String) (c : AppointmentContext),
      (cleanedData flds).lookup "intent" = none →
      analyze_intent_from_recovered (some (.obj flds)) m c
        = fallback_intent_analysis m c := by
  intro flds m c h
  unfold analyze_intent_from_recovered
  dsimp only
  split
  · unfold intentAnalysisOfFields
    rw [h]
  · rfl

/-- Witness for C4's amended statement: a mapping carrying only a city has
no `intent` after cleaning, and the analysis equals the fallback's. -/
theorem recovered_mapping_without_intent_falls_back_witness :
    (cleanedData [("city", JsonValue.str "Riyadh")]).lookup "intent" = none
    ∧ analyze_intent_from_recovered (some (.obj [("city", JsonValue.str "Riyadh")]))
        "go" (freshContext "u")
        = fallback_intent_analysis "go" (freshContext "u") :=
  ⟨rfl, recovered_mapping_without_intent_falls_back _ _ _ rfl⟩

end LucidChatbot

namespace LucidChatbot

/-- `takeLast` is the drop the source computes with `[-50:]`. -/
lemma takeLast_eq_drop (n : ℕ) (l : List HistoryEntryRec) :
    takeLast n l = l.drop (l.length - n) := by
  unfold takeLast
  rw [List.take_reverse, List.reverse_reverse]

/-- One append is exactly "keep the most recent 50 of the appended list". -/
lemma append_to_history_eq (h : List HistoryEntryRec) (e : HistoryEntryRec) :
    append_to_history h e = takeLast 50 (h ++ [e]) := by
  unfold append_to_history
  rw [takeLast_eq_drop]
  dsimp only
  split
  · rfl
  · rename_i hle
    have h0 : (h ++ [e]).length - 50 = 0 := by omega
    rw [h0, List.drop_zero]

/-- The log never exceeds 50 entries after an append, whatever it held. -/
lemma append_to_history_le (h : List HistoryEntryRec) (e : HistoryEntryRec) :
    (append_to_history h e).length ≤ 50 := by
  unfold append_to_history
  dsimp only
  split
  · rename_i hgt
    rw [List.length_drop]
    omega
  · rename_i hle
    omega

/-- Keeping the most recent `n` before appending more does not change the
most recent `n` of the whole. -/
lemma takeLast_append_left (n : ℕ) (l es : List HistoryEntryRec) :
    takeLast n (takeLast n l ++ es) = takeLast n (l ++ es) := by
  unfold takeLast
  rw [List.reverse_append, List.reverse_append, List.reverse_reverse]
  congr 1
  rw [List.take_append_eq_append_take, List.take_append_eq_append_take, List.take_take]
  have hmin : min (n - es.reverse.length) n = n - es.reverse.length :=
    Nat.min_eq_left (Nat.sub_le _ _)
  rw [hmin]

/-- Folding appends from a bounded log keeps exactly the most recent 50 of
everything seen. -/
lemma runAppends_eq_takeLast :
    ∀ (es h : List HistoryEntryRec), h.length ≤ 50 →
      runAppends h es = takeLast 50 (h ++ es) := by
  intro es
  induction es with
  | nil =>
    intro h hle
    have h0 : runAppends h [] = h := rfl
    rw [h0, List.append_nil, takeLast_eq_drop]
    have h1 : h.length - 50 = 0 := by omega
    rw [h1, List.drop_zero]
  | cons e es ih =>
    intro h hle
    have h0 : runAppends h (e :: es) = runAppends (append_to_history h e) es := rfl
    rw [h0, ih _ (append_to_history_le h e), append_to_history_eq,
        takeLast_append_left]
    congr 1
    simp

/-- C8: the per-user history log never holds more than 50 entries after an
append, and appending 60 entries to an empty log leaves exactly the 50 most
recent in arrival order. -/
theorem history_bounded_fifty :
    (∀ (h : List HistoryEntryRec) (e : HistoryEntryRec),
      (append_to_history h e).length ≤ 50)
    ∧ (∀ es : List HistoryEntryRec, es.length = 60 →
        runAppends [] es = es.drop 10) := by
  constructor
  · exact append_to_history_le
  · intro es h60
    have h1 := runAppends_eq_takeLast es [] (by simp)
    rw [List.nil_append] at h1
    rw [h1, takeLast_eq_drop, h60]

/-- Witness for C8 at a concrete 60-entry sequence. -/
theorem history_bounded_fifty_witness :
    (List.replicate 60 histEntryExample).length = 60
    ∧ runAppends [] (List.replicate 60 histEntryExample)
        = (List.replicate 60 histEntryExample).drop 10 :=
  ⟨by simp, history_bounded_fifty.2 _ (by simp)⟩

/-- C6: the fallback analyzer is total with labels from the fixed set, the
confidence each rule prescribes, and the rules tried in source order
(booking, greeting, location, time selection, other). -/
theorem fallback_total_with_prescribed_confidence (m : String) (c : AppointmentContext) :
    (fallback_intent_analysis m c).intent ∈ knownIntentLabels
    ∧ (fallback_intent_analysis m c).confidence
        = prescribedConfidence (fallback_intent_analysis m c).intent
    ∧ ((fallback_intent_analysis m c).intent = "booking"
        ↔ hasKeyword booking_keywords m = true)
    ∧ ((fallback_intent_analysis m c).intent = "greeting"
        ↔ (hasKeyword booking_keywords m = false
           ∧ hasKeyword greeting_keywords m = true))
    ∧ ((fallback_intent_analysis m c).intent = "location"
        ↔ (hasKeyword booking_keywords m = false
           ∧ hasKeyword greeting_keywords m = false
           ∧ ((find_city_from_text m).isSome = true
              ∨ c.state = ConversationState.WAITING_LOCATION)))
    ∧ ((fallback_intent_analysis m c).intent = "time_selection"
        ↔ (hasKeyword booking_keywords m = false
           ∧ hasKeyword greeting_keywords m = false
           ∧ (find_city_from_text m).isSome = false
           ∧ c.state ≠ ConversationState.WAITING_LOCATION
           ∧ (hasKeyword time_keywords m = true
              ∨ c.state = ConversationState.WAITING_TIME_SLOT)))
    ∧ ((fallback_intent_analysis m c).intent = "other"
        ↔ (hasKeyword booking_keywords m = false
           ∧ hasKeyword greeting_keywords m = false
           ∧ (find_city_from_text m).isSome = false
           ∧ c.state ≠ ConversationState.WAITING_LOCATION
           ∧ hasKeyword time_keywords m = false
           ∧ c.state ≠ ConversationState.WAITING_TIME_SLOT)) := by
  unfold fallback_intent_analysis hasKeyword
  dsimp only
  split_ifs with h1 h2 h3 h4
  · simp_all [prescribedConfidence, knownIntentLabels]
  · simp_all [prescribedConfidence, knownIntentLabels]
  · simp_all [prescribedConfidence, knownIntentLabels]
    constructor
    · intro hnone hnwl
      exfalso
      rcases h3 with h3 | h3
      · rw [hnone] at h3
        simp at h3
      · exact hnwl h3
    · intro hnone hnwl
      exfalso
      rcases h3 with h3 | h3
      · rw [hnone] at h3
        simp at h3
      · exact hnwl h3
  · simp_all [prescribedConfidence, knownIntentLabels]
    intro hall
    rcases h4 with ⟨x, hx, ht⟩ | h4
    · rw [hall x hx] at ht
      cases ht
    · exact h4
  · simp_all [prescribedConfidence, knownIntentLabels]

end LucidChatbot
